import Mathlib

/-!
Verification of the job-lifecycle / queue engine of the downte repository
(two near-duplicate server variants: the multi-engine one, called here the
"part_000 variant", and the single-engine `server.js` variant).

The JavaScript source is shallowly embedded: pure fragments become Lean
functions; the asynchronous job pipeline becomes a function over an
environment record that fixes the outcome of each external call
(Telegram messages, uploads, the download subprocess); the queue/
concurrency driver becomes a small labelled transition system; the
filesystem is a list of existing paths.
-/

namespace Downte

/-! ### String helpers mirroring the JavaScript primitives used by the source -/

/-- JavaScript `s.slice(-n)`: the last `n` characters of `s` (all of `s` when
it is shorter than `n`). Used by the adapters for the stderr tail and by the
GET route for the log window. Expressed on the character list so that it
evaluates by kernel reduction. -/
def jsSliceLast (n : Nat) (s : String) : String :=
  ⟨s.data.drop (s.data.length - n)⟩

/-- JavaScript `s.toLowerCase()` (on the code points the source feeds it:
hostnames and URL paths). -/
def jsToLower (s : String) : String :=
  ⟨s.data.map Char.toLower⟩

/-- JavaScript `s.endsWith(suffix)`. -/
def strEndsWith (s suffix : String) : Bool :=
  suffix.data.isSuffixOf s.data

/-- Substring occurrence of `pat` in `l` at any position. -/
def containsAux (pat : List Char) : List Char → Bool
  | [] => pat.isEmpty
  | c :: t => pat.isPrefixOf (c :: t) || containsAux pat t

/-- JavaScript `s.includes(pat)`: substring containment. -/
def jsIncludes (s pat : String) : Bool :=
  containsAux pat.data s.data

/-- JavaScript `s.trim()`: strip whitespace from both ends. -/
def jsTrim (s : String) : String :=
  ⟨((s.data.dropWhile Char.isWhitespace).reverse.dropWhile
      Char.isWhitespace).reverse⟩

/-- `path.basename(fp)`: the part of the path after the last `/`. -/
def basenameModel (fp : String) : String :=
  ⟨(fp.data.reverse.takeWhile (fun c => c != '/')).reverse⟩

/-- Lexicographic order on character lists by code point, the comparison
JavaScript's default string sort uses. -/
def lexLe : List Char → List Char → Bool
  | [], _ => true
  | _ :: _, [] => false
  | a :: as, b :: bs =>
    if a.toNat < b.toNat then true
    else if b.toNat < a.toNat then false
    else lexLe as bs

/-- String comparison for the file sort. -/
def strLeB (a b : String) : Bool :=
  lexLe a.data b.data

/-- Insert into a sorted list, keeping it sorted. -/
def insertSorted (x : String) : List String → List String
  | [] => [x]
  | y :: t => if strLeB x y then x :: y :: t else y :: insertSorted x t

/-- JavaScript `Array.prototype.sort()` on an array of strings: a
lexicographically sorted rearrangement (the source applies it to distinct
file paths, so tie order is moot); realized as insertion sort. -/
def sortFiles (l : List String) : List String :=
  l.foldr insertSorted []

/-- `s` contains `sub` as a substring. -/
def StrContains (s sub : String) : Prop :=
  ∃ a b, s = a ++ sub ++ b

/-- The sort order as a relation, for sortedness statements. -/
def strLe (a b : String) : Prop :=
  strLeB a b = true

/-! ### URL classifier (`classify` in the part_000 variant)

`classify` receives the parsed URL's hostname and pathname (the `new URL`
parse itself is a platform primitive; the classifier only reads these two
components) and computes the three routing booleans exactly as the source:
a case-insensitive extension test on the pathname, an `.m3u8` suffix test,
and a substring test of `"spotify.com"` against the hostname. -/

/-- The direct-download extension alternatives of the source regex
`\.(mp4|mkv|webm|mov|mp3|m4a|wav|flac|ogg|zip|rar|7z|pdf|jpg|jpeg|png|webp)$`. -/
def directExts : List String :=
  ["mp4", "mkv", "webm", "mov", "mp3", "m4a", "wav", "flac", "ogg",
   "zip", "rar", "7z", "pdf", "jpg", "jpeg", "png", "webp"]

structure ClassifyResult where
  isDirect : Bool
  isM3u8 : Bool
  isSpotify : Bool
  host : String
deriving DecidableEq, Repr

/-- `classify(rawUrl)` of the part_000 variant, over the URL's hostname and
pathname. The regex test becomes "the lowercased pathname ends in a dot
followed by one of the listed extensions". -/
def classify (hostname pathname : String) : ClassifyResult :=
  let host := jsToLower hostname
  let lpath := jsToLower pathname
  { isDirect := directExts.any (fun e => strEndsWith lpath ("." ++ e))
    isM3u8 := strEndsWith lpath ".m3u8"
    isSpotify := jsIncludes host "spotify.com"
    host := host }

/-- The routing tags of the dispatch in `runDownload`. -/
inductive Route where
  | direct
  | streamManifest
  | musicService
  | generic
deriving DecidableEq, Repr

/-- The dispatch order of `runDownload` in the part_000 variant:
`isDirect` first, then `isM3u8`, then `isSpotify`, else the yt-dlp fallback. -/
def runDownloadRoute (hostname pathname : String) : Route :=
  let c := classify hostname pathname
  if c.isDirect then .direct
  else if c.isM3u8 then .streamManifest
  else if c.isSpotify then .musicService
  else .generic

/-- Modelled from the spec: clause (c) of the classifier reads "host belongs
to a known music-service domain" (`spotify.com`); domain membership means the
host is the domain itself or a dot-separated subdomain of it. -/
def hostBelongsToMusicDomain (hostname : String) : Bool :=
  jsToLower hostname == "spotify.com" ||
    strEndsWith (jsToLower hostname) ".spotify.com"

/-- Modelled from the spec: the routing precedence of §4.1 with clause (c)
taken as domain membership (the spec's words) instead of the source's
substring test; used to compare the spec's classifier against the code's. -/
def runDownloadRouteSpec (hostname pathname : String) : Route :=
  let c := classify hostname pathname
  if c.isDirect then .direct
  else if c.isM3u8 then .streamManifest
  else if hostBelongsToMusicDomain hostname then .musicService
  else .generic

/-! ### Engine adapters

Each adapter spawns a subprocess and settles its promise from one of two
events: the `"error"` event (spawn failure: binary missing/unexecutable) or
the `"close"` event (the process exited with a status code). The settle
logic of each adapter's handlers is embedded as a function from the event —
together with the data the handler closes over (accumulated stderr, the
printed final path, the output-directory listing, the filesystem) — to
`Option (Except message result)`; `none` means the adapter registered no
handler for that event, so the failure is not surfaced as a job failure. -/

/-- A subprocess settle event: spawn failure, or exit with a status code. -/
inductive ProcEvent where
  | spawnError (msg : String)
  | closed (code : Int)
deriving DecidableEq, Repr

/-- `runYtDlpSingle` (part_000 variant): `p.on("error", reject)`; on close,
resolve the path printed on stdout when the exit code is 0, the path is
nonempty and the file exists, otherwise reject with the exit code and the
last 400 characters of stderr. -/
def runYtDlpSingleOutcome (ev : ProcEvent) (finalPath stderr : String)
    (disk : List String) : Option (Except String String) :=
  match ev with
  | .spawnError e => some (.error e)
  | .closed code =>
    some (if code = 0 ∧ finalPath ≠ "" ∧ finalPath ∈ disk then .ok finalPath
          else .error ("yt-dlp exit code " ++ toString code ++ ". " ++
                       jsSliceLast 400 stderr))

/-- `runAria2Single`: `p.on("error", reject)`; on close, reject a non-zero
exit with the code and stderr tail, reject an empty output directory, and
otherwise resolve the first regular file of the directory listing. -/
def runAria2SingleOutcome (ev : ProcEvent) (stderr : String)
    (dirFiles : List String) : Option (Except String String) :=
  match ev with
  | .spawnError e => some (.error e)
  | .closed code =>
    some (if code ≠ 0 then
            .error ("aria2c exit code " ++ toString code ++ ". " ++
                    jsSliceLast 400 stderr)
          else match dirFiles with
          | [] => .error "aria2c selesai tapi file tidak ditemukan."
          | f :: _ => .ok f)

/-- `runFfmpegM3u8Single`: `p.on("error", reject)`; on close, resolve the
fixed output path when exit is 0 and it exists, otherwise reject with the
exit code only (this adapter accumulates no stderr variable: stderr is only
streamed into the job log). -/
def runFfmpegM3u8Outcome (ev : ProcEvent) (outPath : String)
    (disk : List String) : Option (Except String String) :=
  match ev with
  | .spawnError e => some (.error e)
  | .closed code =>
    some (if code = 0 ∧ outPath ∈ disk then .ok outPath
          else .error ("ffmpeg exit code " ++ toString code))

/-- `runSpotdlMulti`: `p.on("error", reject)`; on close, reject a non-zero
exit with the code and stderr tail, reject an empty output directory, and
otherwise resolve the whole directory listing. -/
def runSpotdlMultiOutcome (ev : ProcEvent) (stderr : String)
    (dirFiles : List String) : Option (Except String (List String)) :=
  match ev with
  | .spawnError e => some (.error e)
  | .closed code =>
    some (if code ≠ 0 then
            .error ("spotdl exit code " ++ toString code ++ ". " ++
                    jsSliceLast 400 stderr)
          else if dirFiles.isEmpty then
            .error "spotdl selesai tapi file tidak ditemukan."
          else .ok dirFiles)

/-- `runYtDlp` of the `server.js` variant: it registers handlers for stdout
and stderr data and for `"close"` but none for `"error"`, so a spawn failure
settles nothing (`none`): the event goes unhandled. On close it resolves like
the part_000 variant, but its rejection message carries the printed path
instead of a stderr tail. -/
def runYtDlpServerOutcome (ev : ProcEvent) (finalPath : String)
    (disk : List String) : Option (Except String String) :=
  match ev with
  | .spawnError _ => none
  | .closed code =>
    some (if code = 0 ∧ finalPath ≠ "" ∧ finalPath ∈ disk then .ok finalPath
          else .error ("yt-dlp exit code " ++ toString code ++ ". finalPath=" ++
                       (if finalPath = "" then "(none)" else finalPath)))

/-! ### Job records and the per-job pipeline

`processQueue` (part_000 variant) admits a job and then runs its pipeline:
set `downloading`, send the starting message, run the router, set
`uploading`, deliver (single file, or sorted multi-file list with per-item
deletion), set `done`, send the completion message, and for a single file
schedule the cleanup timer; any exception in this `try` block is caught and
the job is patched to `error` (the failure notification itself being
swallowed). The pipeline is embedded as a function of an environment that
fixes the outcome of each awaited call. -/

/-- The job status values used by the source. -/
inductive Status where
  | queued
  | downloading
  | uploading
  | done
  | error
deriving DecidableEq, Repr

/-- A job record: the fields stored in the `jobs` map. Timestamps are
abstract ticks; `setJob` bumps `updated_at` on every patch. -/
structure Job where
  id : String
  url : String
  status : Status
  created_at : Nat
  updated_at : Nat
  file_path : Option String
  file_name : Option String
  error : Option String
  log : String
deriving DecidableEq, Repr

/-- The router's result: one produced file, or an ordered collection. -/
inductive EngineResult where
  | single (fp : String)
  | multi (files : List String)
deriving DecidableEq, Repr

/-- Outcomes of the awaited external calls of one pipeline run: for each
Telegram `sendMessage` call site `none` means the call returned (or was
skipped because the bot is unconfigured) and `some e` means it threw `e`;
`engineResult` is the settled outcome of `runDownload`; `uploadErr fp` is
the outcome of `tgSendFileChecked fp`. -/
structure Env where
  startMsg : Option String
  engineResult : Except String EngineResult
  uploadErr : String → Option String
  multiHeaderMsg : Option String
  multiDoneMsg : Option String
  singleDoneMsg : Option String

/-- Observable pipeline events, in execution order. -/
inductive Ev where
  | statusSet (st : Status)
  | engineRun
  | uploaded (fp : String)
  | deleted (fp : String)
deriving DecidableEq, Repr

/-- The `catch` block: patch the job to `error` with the thrown message
(the best-effort failure notification has no effect on the record). -/
def failJob (j : Job) (e : String) : Job :=
  { j with status := .error, error := some e, updated_at := j.updated_at + 1 }

/-- The multi-file delivery loop: for each path in order, upload it
(`tgSendFileChecked`, which throws on failure) and then `unlinkSync` it with
errors ignored (on the path-set filesystem, removal of the path). Returns
the filesystem afterwards, the upload/delete events, and the first thrown
message if any (which aborts the loop). -/
def deliverFiles (env : Env) : List String → List String →
    List String × List Ev × Option String
  | [], disk => (disk, [], none)
  | fp :: rest, disk =>
    match env.uploadErr fp with
    | some e => (disk, [], some e)
    | none =>
      let disk' := disk.filter (fun p => p != fp)
      let r := deliverFiles env rest disk'
      (r.1, .uploaded fp :: .deleted fp :: r.2.1, r.2.2)

/-- The clamped cleanup delay: `Math.max(1, AUTO_CLEANUP_MINUTES) * 60 * 1000`
milliseconds. -/
def cleanupDelayMs (minutes : Nat) : Nat :=
  Nat.max 1 minutes * 60 * 1000

/-- Result of one pipeline run: final job record, filesystem, the delays of
the timers scheduled by the run, and the event trace. -/
structure RunResult where
  job : Job
  disk : List String
  timers : List Nat
  trace : List Ev
deriving Repr

/-- The body of `processQueue` for one admitted job (part_000 variant),
from `setJob(id, { status: "downloading" })` through the `try`/`catch`.
`minutes` is `AUTO_CLEANUP_MINUTES`. -/
def processQueueBody (env : Env) (minutes : Nat) (job0 : Job)
    (disk : List String) : RunResult :=
  let j1 : Job := { job0 with status := .downloading,
                              updated_at := job0.updated_at + 1 }
  let tr0 : List Ev := [.statusSet .downloading]
  match env.startMsg with
  | some e =>
    { job := failJob j1 e, disk := disk, timers := [],
      trace := tr0 ++ [.statusSet .error] }
  | none =>
    match env.engineResult with
    | .error e =>
      { job := failJob j1 e, disk := disk, timers := [],
        trace := tr0 ++ [.engineRun, .statusSet .error] }
    | .ok res =>
      let j2 : Job := { j1 with status := .uploading,
                                updated_at := j1.updated_at + 1 }
      let tr1 : List Ev := tr0 ++ [.engineRun, .statusSet .uploading]
      match res with
      | .multi files0 =>
        let files := sortFiles files0
        let j3 : Job := { j2 with
          file_name := some (toString files.length ++ " files")
          file_path := none
          updated_at := j2.updated_at + 1 }
        match env.multiHeaderMsg with
        | some e =>
          { job := failJob j3 e, disk := disk, timers := [],
            trace := tr1 ++ [.statusSet .error] }
        | none =>
          let d := deliverFiles env files disk
          match d.2.2 with
          | some e =>
            { job := failJob j3 e, disk := d.1, timers := [],
              trace := tr1 ++ d.2.1 ++ [.statusSet .error] }
          | none =>
            let j4 : Job := { j3 with status := .done,
                                      updated_at := j3.updated_at + 1 }
            match env.multiDoneMsg with
            | some e =>
              { job := failJob j4 e, disk := d.1, timers := [],
                trace := tr1 ++ d.2.1 ++ [.statusSet .done, .statusSet .error] }
            | none =>
              { job := j4, disk := d.1, timers := [],
                trace := tr1 ++ d.2.1 ++ [.statusSet .done] }
      | .single fp =>
        let j3 : Job := { j2 with
          file_path := some fp
          file_name := some (basenameModel fp)
          updated_at := j2.updated_at + 1 }
        match env.uploadErr fp with
        | some e =>
          { job := failJob j3 e, disk := disk, timers := [],
            trace := tr1 ++ [.statusSet .error] }
        | none =>
          let j4 : Job := { j3 with status := .done,
                                    updated_at := j3.updated_at + 1 }
          match env.singleDoneMsg with
          | some e =>
            { job := failJob j4 e, disk := disk, timers := [],
              trace := tr1 ++ [.uploaded fp, .statusSet .done, .statusSet .error] }
          | none =>
            { job := j4, disk := disk, timers := [cleanupDelayMs minutes],
              trace := tr1 ++ [.uploaded fp, .statusSet .done] }

/-- The cleanup timer's callback: re-fetch the job record (`cur`); when it
exists, has a truthy (nonempty) `file_path` and that path exists on disk,
unlink it (errors ignored); otherwise leave the filesystem alone. -/
def cleanupFire (cur : Option Job) (disk : List String) : List String :=
  match cur with
  | none => disk
  | some j =>
    match j.file_path with
    | none => disk
    | some fp =>
      if fp ≠ "" ∧ fp ∈ disk then disk.filter (fun p => p != fp) else disk

/-! ### HTTP routes

`POST /api/jobs` validates the submitted URL with `isValidUrl` (a `new URL`
parse plus a protocol check) and either answers 400 without touching any
state, or creates a fresh `queued` record, enqueues its id and answers
`{id, status: "queued"}`. `GET /api/jobs/:id` answers 404 for an unknown id
and otherwise a copy of the record with the log cut to its last 8000
characters. -/

/-- A scheme character after the first: ASCII alphanumeric or `+`, `-`, `.`
(the WHATWG URL scheme grammar). -/
def schemeChar (c : Char) : Bool :=
  c.isAlphanum || c = '+' || c = '-' || c = '.'

/-- The WHATWG parser's input preprocessing: strip leading and trailing C0
controls and spaces, then remove every ASCII tab and newline. -/
def urlPreprocess (l : List Char) : List Char :=
  (((l.dropWhile (fun c => c.toNat ≤ 0x20)).reverse.dropWhile
      (fun c => c.toNat ≤ 0x20)).reverse).filter
    (fun c => c != '\t' && c != '\n' && c != '\r')

/-- A code point allowed in a (non-bracket) host of a special-scheme URL:
everything except the WHATWG forbidden host code points (C0 controls,
space, DEL, `#`, `/`, `:`, `<`, `>`, `?`, `@`, `[`, `\`, `]`, `^`, `|`).
Percent sequences and non-ASCII code points are accepted as-is: the
platform's percent-decoding and IDNA mapping of domains is out of the
model's scope. -/
def hostCharOk (c : Char) : Bool :=
  !(c.toNat ≤ 0x20 || c.toNat == 0x7F || c = '#' || c = '/' || c = ':' ||
    c = '<' || c = '>' || c = '?' || c = '@' || c = '[' || c = '\\' ||
    c = ']' || c = '^' || c = '|')

/-- A code point allowed inside a bracketed (IPv6) host: hex digits,
`:` and `.` (the platform validates the full IPv6 grammar; the model checks
only the alphabet). -/
def ip6CharOk (c : Char) : Bool :=
  c.isDigit || ('a' ≤ c && c ≤ 'f') || ('A' ≤ c && c ≤ 'F') ||
    c = ':' || c = '.'

/-- A valid port part (the characters after the `:`): decimal digits whose
value is at most 65535 (the empty port is allowed). -/
def portOk (p : List Char) : Bool :=
  p.all Char.isDigit &&
    p.foldl (fun n c => n * 10 + (c.toNat - 48)) 0 ≤ 65535

/-- A valid host-with-optional-port of a special-scheme URL: either a
bracketed IPv6 host (closing bracket required, nonempty inside, optional
`:port`), or a nonempty run of allowed host code points with an optional
`:port`. The empty string is invalid (special schemes require a host). -/
def hostPortOk (hp : List Char) : Bool :=
  match hp with
  | [] => false
  | '[' :: rest =>
    match rest.dropWhile (fun c => c != ']') with
    | ']' :: tail =>
      (!(rest.takeWhile (fun c => c != ']')).isEmpty) &&
      (rest.takeWhile (fun c => c != ']')).all ip6CharOk &&
      (match tail with
       | [] => true
       | ':' :: p => portOk p
       | _ => false)
    | _ => false
  | _ =>
    (!(hp.takeWhile (fun c => c != ':')).isEmpty) &&
    (hp.takeWhile (fun c => c != ':')).all hostCharOk &&
    (match hp.dropWhile (fun c => c != ':') with
     | [] => true
     | _ :: p => portOk p)

/-- Host validation of an http(s) URL's after-scheme remainder `r`, per the
WHATWG special-scheme states: skip every leading `/` or `\`, read the
authority up to the first `/`, `\`, `?` or `#`, take the part after the
last `@` (userinfo is not validated) and require a valid host-with-port.
Rejects `"http://"`, `"http:?"` (empty host) and hosts with forbidden code
points such as a space. -/
def httpHostOk (r : List Char) : Bool :=
  hostPortOk
    ((((r.dropWhile (fun c => c = '/' || c = '\\')).takeWhile
        (fun c => c != '/' && c != '\\' && c != '?' && c != '#')).reverse.takeWhile
      (fun c => c != '@')).reverse)

/-- The `new URL` platform parser as far as `isValidUrl` consumes it: after
preprocessing, the string must start with an ASCII letter followed by
scheme characters and a `:`; `url.protocol` is the lowercased scheme with
the colon. For the `http`/`https` special schemes the parse succeeds only
when the remainder carries a valid nonempty host (see `httpHostOk`); for
every other scheme the parse is modelled as succeeding — `isValidUrl`'s
verdict is false for those protocols whether the platform parse succeeds
or throws, so the verdict is unaffected. -/
def urlProtocol? (s : String) : Option String :=
  match urlPreprocess s.data with
  | [] => none
  | c :: rest0 =>
    if c.isAlpha then
      let scheme := (c :: rest0).takeWhile schemeChar
      match (c :: rest0).drop scheme.length with
      | ':' :: r =>
        let proto := scheme.map Char.toLower
        if proto = "http".data ∨ proto = "https".data then
          if httpHostOk r then some ⟨proto ++ [':']⟩ else none
        else some ⟨proto ++ [':']⟩
      | _ => none
    else none

/-- `isValidUrl(u)`: the parse succeeds and the protocol is `http:` or
`https:`. -/
def isValidUrl (u : String) : Bool :=
  match urlProtocol? u with
  | some p => p == "http:" || p == "https:"
  | none => false

/-- The server's shared mutable state touched by the routes: the `jobs`
registry (association by id) and the FIFO `queue` of pending ids. -/
structure ServerState where
  jobs : List Job
  queue : List String
deriving Repr

/-- `jobs.get(id)` on the registry model. -/
def findJob : List Job → String → Option Job
  | [], _ => none
  | j :: rest, i => if j.id = i then some j else findJob rest i

/-- Response of `POST /api/jobs`. -/
inductive PostResp where
  | badRequest (error : String)
  | created (id : String) (status : String)
deriving DecidableEq, Repr

/-- The fresh record created for a submission. -/
def newJob (id url : String) (now : Nat) : Job :=
  { id := id, url := url, status := .queued, created_at := now,
    updated_at := now, file_path := none, file_name := none,
    error := none, log := "" }

/-- The `POST /api/jobs` handler: coerce the body's `url` to a trimmed
string; reject an empty or invalid URL with 400 and no state change;
otherwise create the `queued` record under a fresh id, enqueue the id and
answer `{id, status: "queued"}`. -/
def postJobsHandler (bodyUrl : Option String) (freshId : String) (now : Nat)
    (s : ServerState) : PostResp × ServerState :=
  let url := jsTrim (bodyUrl.getD "")
  if url = "" ∨ isValidUrl url = false then
    (.badRequest "URL tidak valid.", s)
  else
    (.created freshId "queued",
     { jobs := s.jobs ++ [newJob freshId url now],
       queue := s.queue ++ [freshId] })

/-- Response of `GET /api/jobs/:id`. -/
inductive GetResp where
  | notFound (error : String)
  | ok (job : Job)
deriving DecidableEq, Repr

/-- The `GET /api/jobs/:id` handler: 404 for an unknown id; otherwise a
fresh copy of the record (object spread) whose `log` is `log.slice(-8000)`.
The registry is returned unchanged, as the handler performs no `jobs.set`. -/
def getJobHandler (s : ServerState) (i : String) : GetResp × ServerState :=
  match findJob s.jobs i with
  | none => (.notFound "Job tidak ditemukan.", s)
  | some j => (.ok { j with log := jsSliceLast 8000 j.log }, s)

/-- `n` consecutive reads of the same id. -/
def readN (s : ServerState) : Nat → String → ServerState
  | 0, _ => s
  | n + 1, i => (getJobHandler (readN s n i) i).2

/-! ### Derived predicates and concrete fixtures -/

/-- The multi-file success marking: `file_path` null and `file_name` an
item-count summary (`"<n> files"`). -/
def MultiSummary (j : Job) : Prop :=
  j.file_path = none ∧ ∃ n : Nat, j.file_name = some (toString n ++ " files")

/-- `tgSendFileChecked` succeeds on `f` in environment `env`. -/
def uploadOk (env : Env) (f : String) : Bool :=
  (env.uploadErr f).isNone

/-- Remove the given paths from the filesystem, one after the other (the
cumulative effect of the per-item `unlinkSync` calls). -/
def removeAll (disk : List String) (ps : List String) : List String :=
  ps.foldl (fun d f => d.filter (fun p => p != f)) disk

/-- The two events one successful item delivery produces: the upload
followed immediately by the deletion of the artifact. -/
def pairEvents (f : String) : List Ev :=
  [.uploaded f, .deleted f]

/-- A freshly created job record, as the POST handler builds it. -/
def freshJob : Job :=
  newJob "job1" "https://example.com/x" 0

/-- Environment in which every external call succeeds and the engine
produces a single file. -/
def envOkSingle : Env :=
  { startMsg := none
    engineResult := .ok (.single "downloads/job_job1.mp4")
    uploadErr := fun _ => none
    multiHeaderMsg := none
    multiDoneMsg := none
    singleDoneMsg := none }

/-- Environment in which every external call succeeds and the engine
produces two files (listed unsorted). -/
def envOkMulti : Env :=
  { startMsg := none
    engineResult := .ok (.multi ["downloads/job_job1/b.mp3",
                                 "downloads/job_job1/a.mp3"])
    uploadErr := fun _ => none
    multiHeaderMsg := none
    multiDoneMsg := none
    singleDoneMsg := none }

/-- Environment in which the starting notification throws. -/
def envStartFail : Env :=
  { envOkSingle with startMsg := some "TG sendMessage failed: 500 Internal" }

/-- Environment in which the engine produces a single file but its upload
throws. -/
def envUploadFail : Env :=
  { envOkSingle with uploadErr := fun _ => some "TG upload failed: 400 Bad Request" }

/-! ### Scheduler / concurrency gate

The drive step of `processQueue` and the surrounding bookkeeping form a
transition system. Each constructor of `Step` is one synchronous segment of
the JavaScript (the code between two suspension points), acting on the
registry (with, per job, its status and whether its pipeline currently
holds a concurrency slot, i.e. has executed `running++` but not yet the
`finally` `running--`) and the queue. `running` is the number of held
slots. -/

namespace Sched

/-- A registry entry as the scheduler sees it. -/
structure SJob where
  id : Nat
  status : Status
  slot : Bool
deriving DecidableEq, Repr

/-- Scheduler state: registry and FIFO queue of ids. -/
structure St where
  jobs : List SJob
  queue : List Nat
deriving DecidableEq, Repr

/-- The `running` counter: jobs whose pipeline holds a slot. -/
def runningCount (l : List SJob) : Nat :=
  l.countP (fun j => j.slot)

/-- Jobs in `downloading` or `uploading` state. -/
def inflightCount (l : List SJob) : Nat :=
  l.countP (fun j => j.status == .downloading || j.status == .uploading)

/-- One synchronous segment of the source, with `maxC` = `MAX_CONCURRENT`:
* `submit`: the POST handler creates a fresh `queued` record and enqueues it;
* `admitJob`: a drive step with `running < MAX_CONCURRENT` pops the head id,
  increments `running` and patches the job to `downloading`;
* `admitMiss`: the popped id has no record, so the increment is undone in
  the same segment (net effect: the queue loses its head);
* `toUploading`: the job's pipeline patches it to `uploading`;
* `finishDone`: the pipeline patches an `uploading` job to `done`;
* `finishError`: the `catch` patches the job to `error` (reachable from
  `downloading`, `uploading`, or `done` when a later awaited send throws);
* `release`: the `finally` decrements `running` for a terminal job. -/
inductive Step (maxC : Nat) : St → St → Prop
  | submit (s : St) (i : Nat) (hfresh : i ∉ s.jobs.map SJob.id) :
      Step maxC s ⟨s.jobs ++ [⟨i, .queued, false⟩], s.queue ++ [i]⟩
  | admitJob (l₁ l₂ : List SJob) (j : SJob) (rest : List Nat)
      (hrun : runningCount (l₁ ++ j :: l₂) < maxC) :
      Step maxC ⟨l₁ ++ j :: l₂, j.id :: rest⟩
                ⟨l₁ ++ { j with status := .downloading, slot := true } :: l₂,
                 rest⟩
  | admitMiss (s : St) (i : Nat) (rest : List Nat)
      (hrun : runningCount s.jobs < maxC)
      (hq : s.queue = i :: rest) (hmiss : i ∉ s.jobs.map SJob.id) :
      Step maxC s ⟨s.jobs, rest⟩
  | toUploading (l₁ l₂ : List SJob) (j : SJob) (q : List Nat)
      (hst : j.status = .downloading) (hslot : j.slot = true) :
      Step maxC ⟨l₁ ++ j :: l₂, q⟩
                ⟨l₁ ++ { j with status := .uploading } :: l₂, q⟩
  | finishDone (l₁ l₂ : List SJob) (j : SJob) (q : List Nat)
      (hst : j.status = .uploading) (hslot : j.slot = true) :
      Step maxC ⟨l₁ ++ j :: l₂, q⟩
                ⟨l₁ ++ { j with status := .done } :: l₂, q⟩
  | finishError (l₁ l₂ : List SJob) (j : SJob) (q : List Nat)
      (hst : j.status = .downloading ∨ j.status = .uploading ∨
             j.status = .done)
      (hslot : j.slot = true) :
      Step maxC ⟨l₁ ++ j :: l₂, q⟩
                ⟨l₁ ++ { j with status := .error } :: l₂, q⟩
  | release (l₁ l₂ : List SJob) (j : SJob) (q : List Nat)
      (hst : j.status = .done ∨ j.status = .error) (hslot : j.slot = true) :
      Step maxC ⟨l₁ ++ j :: l₂, q⟩
                ⟨l₁ ++ { j with slot := false } :: l₂, q⟩

/-- The empty start state: no jobs, empty queue, `running = 0`. -/
def init : St := ⟨[], []⟩

/-- States reachable from the start state by scheduler segments. -/
inductive Reachable (maxC : Nat) : St → Prop
  | init : Reachable maxC init
  | step {s t : St} : Reachable maxC s → Step maxC s t → Reachable maxC t

/-- The inductive invariant: distinct ids; every queued id refers to a
`queued`, slot-free record; the queue has no duplicates; every in-flight
job holds a slot; at most `maxC` slots are held. -/
structure Inv (maxC : Nat) (s : St) : Prop where
  nodupIds : (s.jobs.map SJob.id).Nodup
  queueJobs : ∀ i ∈ s.queue, ∃ j, j ∈ s.jobs ∧ j.id = i ∧
                j.status = .queued ∧ j.slot = false
  queueNodup : s.queue.Nodup
  inflightSlot : ∀ j ∈ s.jobs,
    (j.status = .downloading ∨ j.status = .uploading) → j.slot = true
  runLe : runningCount s.jobs ≤ maxC

/-- In a registry with distinct ids, two entries with the same id are the
same entry. -/
theorem eq_of_mem_of_id_eq {l : List SJob} (h : (l.map SJob.id).Nodup)
    {a b : SJob} (ha : a ∈ l) (hb : b ∈ l) (hid : a.id = b.id) : a = b :=
  List.inj_on_of_nodup_map h ha hb hid

/-- The start state satisfies the invariant. -/
theorem inv_init (maxC : Nat) : Inv maxC init := by
  refine ⟨?_, ?_, ?_, ?_, ?_⟩ <;> simp [init, runningCount]

/-- Every scheduler segment preserves the invariant. -/
theorem inv_step {maxC : Nat} {s t : St} (hs : Inv maxC s)
    (h : Step maxC s t) : Inv maxC t := by
  cases h with
  | submit s i hfresh =>
    have hqmem : i ∉ s.queue := by
      intro hi
      obtain ⟨j, hjmem, hjid, -, -⟩ := hs.queueJobs i hi
      exact hfresh (hjid ▸ List.mem_map_of_mem SJob.id hjmem)
    refine ⟨?_, ?_, ?_, ?_, ?_⟩
    · simpa [List.nodup_append, hfresh] using hs.nodupIds
    · intro i' hi'
      rcases List.mem_append.mp hi' with hi' | hi'
      · obtain ⟨j, hjmem, hrest⟩ := hs.queueJobs i' hi'
        exact ⟨j, List.mem_append_left _ hjmem, hrest⟩
      · refine ⟨⟨i, .queued, false⟩, List.mem_append_right _ (by simp), ?_⟩
        simp at hi'
        simp [hi']
    · simpa [List.nodup_append, hqmem] using hs.queueNodup
    · intro j hj hst
      rcases List.mem_append.mp hj with hj | hj
      · exact hs.inflightSlot j hj hst
      · simp at hj
        simp [hj] at hst
    · simpa [runningCount, List.countP_append] using hs.runLe
  | admitJob l₁ l₂ j rest hrun =>
    obtain ⟨w, hwmem, hwid, hwq, hws⟩ :=
      hs.queueJobs j.id (by simp)
    have hw : w = j :=
      eq_of_mem_of_id_eq hs.nodupIds hwmem (by simp) hwid
    subst hw
    have hjq : w.status = .queued := hwq
    have hjs : w.slot = false := hws
    have hqtail : w.id ∉ rest := by
      have := hs.queueNodup
      simp at this
      exact this.1
    refine ⟨?_, ?_, ?_, ?_, ?_⟩
    · simpa using hs.nodupIds
    · intro i hi
      obtain ⟨w', hw'mem, hw'id, hw'q, hw's⟩ :=
        hs.queueJobs i (by simp [hi])
      have hne : w' ≠ w := by
        intro he
        subst he
        exact hqtail (hw'id ▸ hi)
      refine ⟨w', ?_, hw'id, hw'q, hw's⟩
      rcases List.mem_append.mp hw'mem with hm | hm
      · exact List.mem_append_left _ hm
      · rcases List.mem_cons.mp hm with hm | hm
        · exact absurd hm hne
        · exact List.mem_append_right _ (List.mem_cons_of_mem _ hm)
    · exact (List.nodup_cons.mp hs.queueNodup).2
    · intro j' hj' hst
      rcases List.mem_append.mp hj' with hm | hm
      · exact hs.inflightSlot j' (List.mem_append_left _ hm) hst
      · rcases List.mem_cons.mp hm with hm | hm
        · simp [hm]
        · exact hs.inflightSlot j'
            (List.mem_append_right _ (List.mem_cons_of_mem _ hm)) hst
    · have hold := hrun
      simp [runningCount, List.countP_append, List.countP_cons, hjs] at hold
      simp [runningCount, List.countP_append, List.countP_cons]
      omega
  | admitMiss s i rest hrun hq hmiss =>
    refine ⟨hs.nodupIds, ?_, ?_, hs.inflightSlot, hs.runLe⟩
    · intro i' hi'
      exact hs.queueJobs i' (by simp [hq, hi'])
    · have := hs.queueNodup
      rw [hq] at this
      exact (List.nodup_cons.mp this).2
  | toUploading l₁ l₂ j q hst hslot =>
    refine ⟨?_, ?_, hs.queueNodup, ?_, ?_⟩
    · simpa using hs.nodupIds
    · intro i hi
      obtain ⟨w, hwmem, hwid, hwq, hws⟩ := hs.queueJobs i hi
      have hne : w ≠ j := by
        intro he
        rw [he, hslot] at hws
        cases hws
      refine ⟨w, ?_, hwid, hwq, hws⟩
      rcases List.mem_append.mp hwmem with hm | hm
      · exact List.mem_append_left _ hm
      · rcases List.mem_cons.mp hm with hm | hm
        · exact absurd hm hne
        · exact List.mem_append_right _ (List.mem_cons_of_mem _ hm)
    · intro j' hj' hst'
      rcases List.mem_append.mp hj' with hm | hm
      · exact hs.inflightSlot j' (List.mem_append_left _ hm) hst'
      · rcases List.mem_cons.mp hm with hm | hm
        · simp [hm, hslot]
        · exact hs.inflightSlot j'
            (List.mem_append_right _ (List.mem_cons_of_mem _ hm)) hst'
    · have := hs.runLe
      simp [runningCount, List.countP_append, List.countP_cons] at this ⊢
      simpa using this
  | finishDone l₁ l₂ j q hst hslot =>
    refine ⟨?_, ?_, hs.queueNodup, ?_, ?_⟩
    · simpa using hs.nodupIds
    · intro i hi
      obtain ⟨w, hwmem, hwid, hwq, hws⟩ := hs.queueJobs i hi
      have hne : w ≠ j := by
        intro he
        rw [he, hslot] at hws
        cases hws
      refine ⟨w, ?_, hwid, hwq, hws⟩
      rcases List.mem_append.mp hwmem with hm | hm
      · exact List.mem_append_left _ hm
      · rcases List.mem_cons.mp hm with hm | hm
        · exact absurd hm hne
        · exact List.mem_append_right _ (List.mem_cons_of_mem _ hm)
    · intro j' hj' hst'
      rcases List.mem_append.mp hj' with hm | hm
      · exact hs.inflightSlot j' (List.mem_append_left _ hm) hst'
      · rcases List.mem_cons.mp hm with hm | hm
        · rw [hm] at hst'
          simp at hst'
        · exact hs.inflightSlot j'
            (List.mem_append_right _ (List.mem_cons_of_mem _ hm)) hst'
    · have := hs.runLe
      simp [runningCount, List.countP_append, List.countP_cons] at this ⊢
      simpa using this
  | finishError l₁ l₂ j q hst hslot =>
    refine ⟨?_, ?_, hs.queueNodup, ?_, ?_⟩
    · simpa using hs.nodupIds
    · intro i hi
      obtain ⟨w, hwmem, hwid, hwq, hws⟩ := hs.queueJobs i hi
      have hne : w ≠ j := by
        intro he
        rw [he, hslot] at hws
        cases hws
      refine ⟨w, ?_, hwid, hwq, hws⟩
      rcases List.mem_append.mp hwmem with hm | hm
      · exact List.mem_append_left _ hm
      · rcases List.mem_cons.mp hm with hm | hm
        · exact absurd hm hne
        · exact List.mem_append_right _ (List.mem_cons_of_mem _ hm)
    · intro j' hj' hst'
      rcases List.mem_append.mp hj' with hm | hm
      · exact hs.inflightSlot j' (List.mem_append_left _ hm) hst'
      · rcases List.mem_cons.mp hm with hm | hm
        · rw [hm] at hst'
          simp at hst'
        · exact hs.inflightSlot j'
            (List.mem_append_right _ (List.mem_cons_of_mem _ hm)) hst'
    · have := hs.runLe
      simp [runningCount, List.countP_append, List.countP_cons] at this ⊢
      simpa using this
  | release l₁ l₂ j q hst hslot =>
    refine ⟨?_, ?_, hs.queueNodup, ?_, ?_⟩
    · simpa using hs.nodupIds
    · intro i hi
      obtain ⟨w, hwmem, hwid, hwq, hws⟩ := hs.queueJobs i hi
      have hne : w ≠ j := by
        intro he
        rw [he, hslot] at hws
        cases hws
      refine ⟨w, ?_, hwid, hwq, hws⟩
      rcases List.mem_append.mp hwmem with hm | hm
      · exact List.mem_append_left _ hm
      · rcases List.mem_cons.mp hm with hm | hm
        · exact absurd hm hne
        · exact List.mem_append_right _ (List.mem_cons_of_mem _ hm)
    · intro j' hj' hst'
      rcases List.mem_append.mp hj' with hm | hm
      · exact hs.inflightSlot j' (List.mem_append_left _ hm) hst'
      · rcases List.mem_cons.mp hm with hm | hm
        · rw [hm] at hst'
          rcases hst with hd | hd <;> simp [hd] at hst'
        · exact hs.inflightSlot j'
            (List.mem_append_right _ (List.mem_cons_of_mem _ hm)) hst'
    · have := hs.runLe
      simp [runningCount, List.countP_append, List.countP_cons, hslot]
        at this ⊢
      omega

/-- Every reachable state satisfies the invariant. -/
theorem reachable_inv {maxC : Nat} {s : St} (h : Reachable maxC s) :
    Inv maxC s := by
  induction h with
  | init => exact inv_init maxC
  | step _ hstep ih => exact inv_step ih hstep

/-- In an invariant state, the in-flight count is bounded by the `running`
counter. -/
theorem inflight_le_running {maxC : Nat} {s : St} (hs : Inv maxC s) :
    inflightCount s.jobs ≤ runningCount s.jobs := by
  refine List.countP_mono_left ?_
  intro j hj hp
  have hst : j.status = .downloading ∨ j.status = .uploading := by
    rcases Bool.or_eq_true_iff.mp hp with hp | hp
    · exact Or.inl (by simpa using hp)
    · exact Or.inr (by simpa using hp)
  simp [hs.inflightSlot j hj hst]

end Sched

/-! ### Claim theorems -/

/-- C1 (amended): the "starting" notification is awaited inside the
pipeline's `try` block, so when it throws after the job entered
`downloading`, the `catch` patches the job to `error` with the
notification's failure message and the engine adapter is never invoked. -/
theorem start_notification_failure_aborts (env : Env) (minutes : Nat)
    (job0 : Job) (disk : List String) (e : String)
    (h : env.startMsg = some e) :
    (processQueueBody env minutes job0 disk).job.status = .error ∧
    (processQueueBody env minutes job0 disk).job.error = some e ∧
    Ev.engineRun ∉ (processQueueBody env minutes job0 disk).trace := by
  simp [processQueueBody, h, failJob]

/-- C1 (counterexample to the claim as stated): in a run whose starting
notification fails — with the engine otherwise able to produce a file —
the job ends in `error` and the engine adapter is never run, contradicting
"the job still proceeds to run its engine adapter rather than entering
`error`". -/
theorem start_notification_failure_aborts_cex :
    (processQueueBody envStartFail 60 freshJob
        ["downloads/job_job1.mp4"]).job.status = .error ∧
    Ev.engineRun ∉
      (processQueueBody envStartFail 60 freshJob
        ["downloads/job_job1.mp4"]).trace := by
  decide

/-- Witness for `start_notification_failure_aborts` at a concrete input. -/
theorem start_notification_failure_aborts_witness :
    (processQueueBody envStartFail 60 freshJob []).job.error =
      some "TG sendMessage failed: 500 Internal" :=
  (start_notification_failure_aborts envStartFail 60 freshJob [] _ rfl).2.1

/-- C3: in every reachable scheduler state the number of jobs in
`downloading` or `uploading` is at most `MAX_CONCURRENT` (an integer ≥ 1):
a drive step admits only below the ceiling and increments the held-slot
count before the pipeline starts, and the count is decremented only after
the job is terminal. -/
theorem queue_concurrency_bound (maxC : Nat) (hmax : 1 ≤ maxC)
    (s : Sched.St) (h : Sched.Reachable maxC s) :
    Sched.inflightCount s.jobs ≤ maxC :=
  le_trans (Sched.inflight_le_running (Sched.reachable_inv h))
    (Sched.reachable_inv h).runLe

/-- Witness for `queue_concurrency_bound`: with ceiling 1, after submitting
one job and admitting it, the in-flight count is within the bound. -/
theorem queue_concurrency_bound_witness :
    Sched.inflightCount
      (Sched.St.mk [⟨1, .downloading, true⟩] []).jobs ≤ 1 := by
  have h1 : Sched.Step 1 Sched.init ⟨[⟨1, .queued, false⟩], [1]⟩ :=
    Sched.Step.submit Sched.init 1 (by simp [Sched.init])
  have h2 : Sched.Step 1 ⟨[⟨1, .queued, false⟩], [1]⟩
      ⟨[⟨1, .downloading, true⟩], []⟩ :=
    Sched.Step.admitJob [] [] ⟨1, .queued, false⟩ []
      (by simp [Sched.runningCount])
  exact queue_concurrency_bound 1 (by decide) _
    ((Sched.Reachable.init.step h1).step h2)

/-- C4 (amended): the router dispatches with first match winning — direct
extension, then `.m3u8` suffix, then the music-service test, else generic —
where the music-service test is the source's case-insensitive substring
containment of `"spotify.com"` in the hostname (not domain membership).
The classification is a pure function of hostname and pathname. -/
theorem classify_precedence (hostname pathname : String) :
    ((∃ e ∈ directExts, strEndsWith (jsToLower pathname) ("." ++ e) = true) →
       runDownloadRoute hostname pathname = .direct) ∧
    ((¬ ∃ e ∈ directExts, strEndsWith (jsToLower pathname) ("." ++ e) = true) →
       strEndsWith (jsToLower pathname) ".m3u8" = true →
       runDownloadRoute hostname pathname = .streamManifest) ∧
    ((¬ ∃ e ∈ directExts, strEndsWith (jsToLower pathname) ("." ++ e) = true) →
       strEndsWith (jsToLower pathname) ".m3u8" = false →
       jsIncludes (jsToLower hostname) "spotify.com" = true →
       runDownloadRoute hostname pathname = .musicService) ∧
    ((¬ ∃ e ∈ directExts, strEndsWith (jsToLower pathname) ("." ++ e) = true) →
       strEndsWith (jsToLower pathname) ".m3u8" = false →
       jsIncludes (jsToLower hostname) "spotify.com" = false →
       runDownloadRoute hostname pathname = .generic) := by
  refine ⟨?_, ?_, ?_, ?_⟩
  · rintro ⟨e, he, hend⟩
    have hd : (directExts.any
        fun e => strEndsWith (jsToLower pathname) ("." ++ e)) = true :=
      List.any_eq_true.mpr ⟨e, he, hend⟩
    simp [runDownloadRoute, classify, hd]
  · intro h hm
    have hd : (directExts.any
        fun e => strEndsWith (jsToLower pathname) ("." ++ e)) = false := by
      rw [Bool.eq_false_iff]
      intro hany
      exact h (List.any_eq_true.mp hany)
    simp [runDownloadRoute, classify, hd, hm]
  · intro h hm hsp
    have hd : (directExts.any
        fun e => strEndsWith (jsToLower pathname) ("." ++ e)) = false := by
      rw [Bool.eq_false_iff]
      intro hany
      exact h (List.any_eq_true.mp hany)
    simp [runDownloadRoute, classify, hd, hm, hsp]
  · intro h hm hsp
    have hd : (directExts.any
        fun e => strEndsWith (jsToLower pathname) ("." ++ e)) = false := by
      rw [Bool.eq_false_iff]
      intro hany
      exact h (List.any_eq_true.mp hany)
    simp [runDownloadRoute, classify, hd, hm, hsp]

/-- C4 (counterexample to the claim as stated): a hostname that merely
contains `"spotify.com"` as a substring without belonging to that domain is
routed to the music-service adapter by the code, while the spec's
precedence ("host belongs to the music-service domain") would route it to
the generic adapter. -/
theorem classify_precedence_cex :
    runDownloadRoute "spotify.com.evil.example" "/track/1" = .musicService ∧
    hostBelongsToMusicDomain "spotify.com.evil.example" = false ∧
    runDownloadRouteSpec "spotify.com.evil.example" "/track/1" = .generic := by
  refine ⟨?_, ?_, ?_⟩ <;> decide

/-- The lexicographic comparison is total. -/
theorem lexLe_total : ∀ as bs : List Char, lexLe as bs = true ∨ lexLe bs as = true
  | [], _ => Or.inl rfl
  | _ :: _, [] => Or.inr rfl
  | a :: as, b :: bs => by
    by_cases h1 : a.toNat < b.toNat
    · exact Or.inl (by simp [lexLe, h1])
    · by_cases h2 : b.toNat < a.toNat
      · exact Or.inr (by simp [lexLe, h2])
      · rcases lexLe_total as bs with h | h
        · exact Or.inl (by simp [lexLe, h1, h2, h])
        · exact Or.inr (by simp [lexLe, h1, h2, h])

/-- The lexicographic comparison is transitive. -/
theorem lexLe_trans : ∀ as bs cs : List Char, lexLe as bs = true →
    lexLe bs cs = true → lexLe as cs = true
  | [], _, _, _, _ => rfl
  | _ :: _, [], _, h1, _ => by simp [lexLe] at h1
  | _ :: _, _ :: _, [], _, h2 => by simp [lexLe] at h2
  | a :: as, b :: bs, c :: cs, h1, h2 => by
    simp only [lexLe] at h1 h2 ⊢
    rcases Nat.lt_trichotomy a.toNat b.toNat with hab | hab | hab
    · rcases Nat.lt_trichotomy b.toNat c.toNat with hbc | hbc | hbc
      · simp [show a.toNat < c.toNat from Nat.lt_trans hab hbc]
      · simp [show a.toNat < c.toNat by omega]
      · rw [if_neg (by omega), if_pos hbc] at h2
        simp at h2
    · rw [if_neg (by omega), if_neg (by omega)] at h1
      rcases Nat.lt_trichotomy b.toNat c.toNat with hbc | hbc | hbc
      · simp [show a.toNat < c.toNat by omega]
      · rw [if_neg (by omega), if_neg (by omega)] at h2
        rw [if_neg (by omega), if_neg (by omega)]
        exact lexLe_trans as bs cs h1 h2
      · rw [if_neg (by omega), if_pos hbc] at h2
        simp at h2
    · rw [if_neg (by omega), if_pos hab] at h1
      simp at h1

/-- Totality of the string sort order. -/
theorem strLe_total (a b : String) (h : strLeB a b = false) : strLe b a := by
  rcases lexLe_total a.data b.data with h' | h'
  · rw [strLeB] at h
    rw [h] at h'
    simp at h'
  · exact h'

/-- Transitivity of the string sort order. -/
theorem strLe_trans {a b c : String} (h1 : strLe a b) (h2 : strLe b c) :
    strLe a c :=
  lexLe_trans a.data b.data c.data h1 h2

/-- Membership in an insertion. -/
theorem mem_insertSorted {a x : String} : ∀ {l : List String},
    a ∈ insertSorted x l ↔ a = x ∨ a ∈ l
  | [] => by simp [insertSorted]
  | y :: t => by
    by_cases h : strLeB x y = true
    · simp [insertSorted, h]
    · simp only [insertSorted, if_neg h, List.mem_cons,
        mem_insertSorted (l := t)]
      tauto

/-- Insertion preserves sortedness. -/
theorem sorted_insertSorted (x : String) : ∀ {l : List String},
    List.Sorted strLe l → List.Sorted strLe (insertSorted x l)
  | [], _ => by simp [insertSorted]
  | y :: t, h => by
    rw [List.sorted_cons] at h
    obtain ⟨hy, ht⟩ := h
    by_cases hxy : strLeB x y = true
    · rw [insertSorted, if_pos hxy, List.sorted_cons]
      refine ⟨?_, List.sorted_cons.mpr ⟨hy, ht⟩⟩
      intro b hb
      rcases List.mem_cons.mp hb with rfl | hb
      · exact hxy
      · exact strLe_trans hxy (hy b hb)
    · rw [insertSorted, if_neg hxy, List.sorted_cons]
      refine ⟨?_, sorted_insertSorted x ht⟩
      intro b hb
      rcases mem_insertSorted.mp hb with rfl | hb
      · exact strLe_total _ _ (Bool.eq_false_iff.mpr hxy)
      · exact hy b hb

/-- The file sort is sorted. -/
theorem sorted_sortFiles (l : List String) :
    List.Sorted strLe (sortFiles l) := by
  induction l with
  | nil => simp [sortFiles]
  | cons x t ih =>
    rw [sortFiles, List.foldr_cons]
    exact sorted_insertSorted x ih

/-- Witness for `classify_precedence` on the four concrete routes. -/
theorem classify_precedence_witness :
    runDownloadRoute "example.com" "/v/Video.MP4" = .direct ∧
    runDownloadRoute "example.com" "/live/stream.m3u8" = .streamManifest ∧
    runDownloadRoute "open.spotify.com" "/playlist/abc" = .musicService ∧
    runDownloadRoute "news.ycombinator.com" "/item" = .generic := by
  refine ⟨?_, ?_, ?_, ?_⟩
  · exact (classify_precedence "example.com" "/v/Video.MP4").1
      ⟨"mp4", by decide, by decide⟩
  · exact (classify_precedence "example.com" "/live/stream.m3u8").2.1
      (by decide) (by decide)
  · exact (classify_precedence "open.spotify.com" "/playlist/abc").2.2.1
      (by decide) (by decide) (by decide)
  · exact (classify_precedence "news.ycombinator.com" "/item").2.2.2
      (by decide) (by decide) (by decide)

/-- C2 (amended): when a pipeline run over a freshly created record ends in
`done`, `error` is null and exactly one of {`file_path` set, multi-file
summary} holds; when it ends in `error`, `error` is set (though `file_path`
or a multi-file summary recorded before the failure may remain). -/
theorem terminal_exclusivity (env : Env) (minutes : Nat) (job0 : Job)
    (disk : List String) (h1 : job0.file_path = none)
    (h2 : job0.file_name = none) (h3 : job0.error = none) :
    ((processQueueBody env minutes job0 disk).job.status = .done →
       (processQueueBody env minutes job0 disk).job.error = none ∧
       (((processQueueBody env minutes job0 disk).job.file_path ≠ none ∧
           ¬ MultiSummary (processQueueBody env minutes job0 disk).job) ∨
        ((processQueueBody env minutes job0 disk).job.file_path = none ∧
           MultiSummary (processQueueBody env minutes job0 disk).job))) ∧
    ((processQueueBody env minutes job0 disk).job.status = .error →
       (processQueueBody env minutes job0 disk).job.error ≠ none) := by
  cases hs : env.startMsg with
  | some e =>
    refine ⟨?_, ?_⟩
    · intro hst
      simp [processQueueBody, hs, failJob] at hst
    · intro _
      simp [processQueueBody, hs, failJob]
  | none =>
    cases hr : env.engineResult with
    | error e =>
      refine ⟨?_, ?_⟩
      · intro hst
        simp [processQueueBody, hs, hr, failJob] at hst
      · intro _
        simp [processQueueBody, hs, hr, failJob]
    | ok res =>
      cases res with
      | single fp =>
        cases hu : env.uploadErr fp with
        | some e =>
          refine ⟨?_, ?_⟩
          · intro hst
            simp [processQueueBody, hs, hr, hu, failJob] at hst
          · intro _
            simp [processQueueBody, hs, hr, hu, failJob]
        | none =>
          cases hm : env.singleDoneMsg with
          | some e =>
            refine ⟨?_, ?_⟩
            · intro hst
              simp [processQueueBody, hs, hr, hu, hm, failJob] at hst
            · intro _
              simp [processQueueBody, hs, hr, hu, hm, failJob]
          | none =>
            refine ⟨?_, ?_⟩
            · intro _
              refine ⟨by simp [processQueueBody, hs, hr, hu, hm, h3],
                      Or.inl ⟨?_, ?_⟩⟩
              · simp [processQueueBody, hs, hr, hu, hm]
              · rintro ⟨hfp, -⟩
                simp [processQueueBody, hs, hr, hu, hm] at hfp
            · intro hst
              simp [processQueueBody, hs, hr, hu, hm] at hst
      | multi files0 =>
        cases hh : env.multiHeaderMsg with
        | some e =>
          refine ⟨?_, ?_⟩
          · intro hst
            simp [processQueueBody, hs, hr, hh, failJob] at hst
          · intro _
            simp [processQueueBody, hs, hr, hh, failJob]
        | none =>
          cases herr : (deliverFiles env (sortFiles files0) disk).2.2 with
          | some e =>
            refine ⟨?_, ?_⟩
            · intro hst
              simp [processQueueBody, hs, hr, hh, herr, failJob] at hst
            · intro _
              simp [processQueueBody, hs, hr, hh, herr, failJob]
          | none =>
            cases hm : env.multiDoneMsg with
            | some e =>
              refine ⟨?_, ?_⟩
              · intro hst
                simp [processQueueBody, hs, hr, hh, herr, hm, failJob] at hst
              · intro _
                simp [processQueueBody, hs, hr, hh, herr, hm, failJob]
            | none =>
              refine ⟨?_, ?_⟩
              · intro _
                refine ⟨by simp [processQueueBody, hs, hr, hh, herr, hm, h3],
                        Or.inr ⟨?_, ?_⟩⟩
                · simp [processQueueBody, hs, hr, hh, herr, hm]
                · exact ⟨by simp [processQueueBody, hs, hr, hh, herr, hm],
                         (sortFiles files0).length,
                         by simp [processQueueBody, hs, hr, hh, herr, hm]⟩
              · intro hst
                simp [processQueueBody, hs, hr, hh, herr, hm] at hst

/-- C2 (counterexample to the claim as stated): when the single-file upload
fails after `file_path` was recorded, the job ends in `error` with `error`
set while `file_path` is still set — two of the three alternatives hold at
once. -/
theorem terminal_exclusivity_cex :
    (processQueueBody envUploadFail 60 freshJob
        ["downloads/job_job1.mp4"]).job.status = .error ∧
    (processQueueBody envUploadFail 60 freshJob
        ["downloads/job_job1.mp4"]).job.file_path =
      some "downloads/job_job1.mp4" ∧
    (processQueueBody envUploadFail 60 freshJob
        ["downloads/job_job1.mp4"]).job.error =
      some "TG upload failed: 400 Bad Request" := by
  refine ⟨?_, ?_, ?_⟩ <;> decide

/-- Witness for `terminal_exclusivity` at a concrete input. -/
theorem terminal_exclusivity_witness :
    (processQueueBody envOkSingle 60 freshJob []).job.error = none :=
  ((terminal_exclusivity envOkSingle 60 freshJob [] rfl rfl rfl).1
    (by decide)).1

/-- Closed form of the delivery loop: it processes the longest all-successful
starting segment of the list, producing for each file an upload followed
immediately by its deletion, removes exactly those files, and reports the
first failing file's thrown message (when there is one). -/
theorem deliverFiles_spec (env : Env) (files disk : List String) :
    deliverFiles env files disk =
      (removeAll disk (files.takeWhile (uploadOk env)),
       (files.takeWhile (uploadOk env)).flatMap pairEvents,
       ((files.dropWhile (uploadOk env)).head?).bind env.uploadErr) := by
  induction files generalizing disk with
  | nil => simp [deliverFiles, removeAll]
  | cons f rest ih =>
    cases hf : env.uploadErr f with
    | some e =>
      have hok : uploadOk env f = false := by simp [uploadOk, hf]
      simp [deliverFiles, hf, hok, removeAll]
    | none =>
      have hok : uploadOk env f = true := by simp [uploadOk, hf]
      simp [deliverFiles, hf, hok, removeAll, ih, pairEvents]

/-- The head of the remainder after `dropWhile` fails the predicate. -/
theorem head?_dropWhile_false {α : Type} (p : α → Bool) :
    ∀ (l : List α) {a : α}, (l.dropWhile p).head? = some a → p a = false
  | [], a => by simp
  | x :: xs, a => by
    cases hx : p x with
    | true =>
      rw [List.dropWhile_cons_of_pos hx]
      exact head?_dropWhile_false p xs
    | false =>
      rw [List.dropWhile_cons_of_neg (by simp [hx])]
      intro h
      cases h
      exact hx

/-- A pipeline run whose engine settles with a failure ends in `error`,
carrying the engine's message. -/
theorem processQueueBody_engineError (env : Env) (minutes : Nat)
    (job0 : Job) (disk : List String) (e : String)
    (h1 : env.startMsg = none) (h2 : env.engineResult = .error e) :
    (processQueueBody env minutes job0 disk).job.status = .error ∧
    (processQueueBody env minutes job0 disk).job.error = some e := by
  simp [processQueueBody, h1, h2, failJob]

/-- C5: multi-file delivery. The delivered order is the sorted order (a
sorted list of which the processed segment is a starting run); each
delivered item's upload event is immediately followed by its deletion
event, and exactly the delivered items are removed from disk; when every
item uploads (and the final notification returns) the job is marked `done`
after all deliveries with the item-count summary; a failure on any item
aborts the whole job into `error` with the failure recorded and no item
after the failing one touched. -/
theorem multi_delivery (env : Env) (minutes : Nat) (job0 : Job)
    (disk files0 : List String) (h1 : env.startMsg = none)
    (h2 : env.engineResult = .ok (.multi files0))
    (h3 : env.multiHeaderMsg = none) :
    List.Sorted strLe (sortFiles files0) ∧
    (∃ rest, (sortFiles files0).takeWhile (uploadOk env) ++ rest =
        sortFiles files0) ∧
    (processQueueBody env minutes job0 disk).disk =
      removeAll disk ((sortFiles files0).takeWhile (uploadOk env)) ∧
    ((∀ f ∈ sortFiles files0, uploadOk env f = true) →
       env.multiDoneMsg = none →
       (processQueueBody env minutes job0 disk).job.status = .done ∧
       (processQueueBody env minutes job0 disk).job.file_name =
         some (toString (sortFiles files0).length ++ " files") ∧
       (processQueueBody env minutes job0 disk).trace =
         [.statusSet .downloading, .engineRun, .statusSet .uploading] ++
           (sortFiles files0).flatMap pairEvents ++ [.statusSet .done]) ∧
    ((∃ f ∈ sortFiles files0, uploadOk env f = false) →
       (processQueueBody env minutes job0 disk).job.status = .error ∧
       (processQueueBody env minutes job0 disk).job.error ≠ none ∧
       (processQueueBody env minutes job0 disk).trace =
         [.statusSet .downloading, .engineRun, .statusSet .uploading] ++
           ((sortFiles files0).takeWhile (uploadOk env)).flatMap pairEvents ++
           [.statusSet .error]) := by
  have hd := deliverFiles_spec env (sortFiles files0) disk
  refine ⟨sorted_sortFiles files0,
    ⟨(sortFiles files0).dropWhile (uploadOk env),
      List.takeWhile_append_dropWhile (uploadOk env) (sortFiles files0)⟩,
    ?_, ?_, ?_⟩
  · cases hbind : (((sortFiles files0).dropWhile
        (uploadOk env)).head?).bind env.uploadErr with
    | some e =>
      simp [processQueueBody, h1, h2, h3, hd, hbind]
    | none =>
      cases hm : env.multiDoneMsg with
      | some e => simp [processQueueBody, h1, h2, h3, hd, hbind, hm]
      | none => simp [processQueueBody, h1, h2, h3, hd, hbind, hm]
  · intro hall hdone
    have htake : (sortFiles files0).takeWhile (uploadOk env) =
        sortFiles files0 :=
      List.takeWhile_eq_self_iff.mpr (by simpa using hall)
    have hdropnil : (sortFiles files0).dropWhile (uploadOk env) = [] :=
      List.dropWhile_eq_nil_iff.mpr (by simpa using hall)
    refine ⟨?_, ?_, ?_⟩ <;>
      simp [processQueueBody, h1, h2, h3, hd, htake, hdropnil, hdone,
        List.append_assoc]
  · rintro ⟨f, hfmem, hffalse⟩
    have hdropne : (sortFiles files0).dropWhile (uploadOk env) ≠ [] := by
      intro hnil
      have := List.dropWhile_eq_nil_iff.mp hnil f hfmem
      simp [hffalse] at this
    cases hdw : (sortFiles files0).dropWhile (uploadOk env) with
    | nil => exact absurd hdw hdropne
    | cons g t =>
      have hg : uploadOk env g = false :=
        head?_dropWhile_false (uploadOk env) (sortFiles files0)
          (by rw [hdw]; rfl)
      obtain ⟨e, he⟩ : ∃ e, env.uploadErr g = some e := by
        cases hu : env.uploadErr g with
        | none => simp [uploadOk, hu] at hg
        | some e => exact ⟨e, rfl⟩
      refine ⟨?_, ?_, ?_⟩ <;>
        simp [processQueueBody, h1, h2, h3, hd, hdw, he, failJob,
          List.append_assoc]

/-- Witness for `multi_delivery` at a concrete input: both files delivered
in sorted order, each deleted right after its upload, then the job marked
`done`. -/
theorem multi_delivery_witness :
    (processQueueBody envOkMulti 60 freshJob
        ["downloads/job_job1/b.mp3", "downloads/job_job1/a.mp3"]).trace =
      [.statusSet .downloading, .engineRun, .statusSet .uploading] ++
        [Ev.uploaded "downloads/job_job1/a.mp3",
         Ev.deleted "downloads/job_job1/a.mp3",
         Ev.uploaded "downloads/job_job1/b.mp3",
         Ev.deleted "downloads/job_job1/b.mp3"] ++ [.statusSet .done] := by
  have h := (multi_delivery envOkMulti 60 freshJob
    ["downloads/job_job1/b.mp3", "downloads/job_job1/a.mp3"]
    ["downloads/job_job1/b.mp3", "downloads/job_job1/a.mp3"]
    rfl rfl rfl).2.2.2.1 (by decide) rfl
  rw [h.2.2]
  decide

/-- C6 (amended): every part_000 adapter settles a spawn failure by
rejecting with the spawn error and a non-zero exit by rejecting with a
message carrying the exit code — with the last 400 characters of captured
stderr included by the yt-dlp, aria2c and spotdl adapters but not by the
ffmpeg adapter, whose message carries the exit code only; the `server.js`
yt-dlp adapter registers no spawn-error handler, so its spawn failure
settles nothing. -/
theorem adapter_failure_surface (code : Int) (e finalPath stderr outPath :
    String) (disk dirFiles : List String) (hc : code ≠ 0) :
    runYtDlpSingleOutcome (.spawnError e) finalPath stderr disk =
      some (.error e) ∧
    runAria2SingleOutcome (.spawnError e) stderr dirFiles =
      some (.error e) ∧
    runFfmpegM3u8Outcome (.spawnError e) outPath disk = some (.error e) ∧
    runSpotdlMultiOutcome (.spawnError e) stderr dirFiles =
      some (.error e) ∧
    runYtDlpSingleOutcome (.closed code) finalPath stderr disk =
      some (.error ("yt-dlp exit code " ++ toString code ++ ". " ++
        jsSliceLast 400 stderr)) ∧
    runAria2SingleOutcome (.closed code) stderr dirFiles =
      some (.error ("aria2c exit code " ++ toString code ++ ". " ++
        jsSliceLast 400 stderr)) ∧
    runSpotdlMultiOutcome (.closed code) stderr dirFiles =
      some (.error ("spotdl exit code " ++ toString code ++ ". " ++
        jsSliceLast 400 stderr)) ∧
    runFfmpegM3u8Outcome (.closed code) outPath disk =
      some (.error ("ffmpeg exit code " ++ toString code)) ∧
    runYtDlpServerOutcome (.spawnError e) finalPath disk = none := by
  refine ⟨rfl, rfl, rfl, rfl, ?_, ?_, ?_, ?_, rfl⟩
  · simp [runYtDlpSingleOutcome, hc]
  · simp [runAria2SingleOutcome, hc]
  · simp [runSpotdlMultiOutcome, hc]
  · simp [runFfmpegM3u8Outcome, hc]

/-- C6 (counterexample to the claim as stated): the ffmpeg adapter's
non-zero-exit failure message carries no portion of the captured stderr
(here `"Connection refused"`), and the `server.js` yt-dlp adapter leaves a
spawn failure unhandled instead of surfacing it as a job failure. -/
theorem adapter_failure_surface_cex :
    runFfmpegM3u8Outcome (.closed 1) "downloads/job_job1.mp4" [] =
      some (.error "ffmpeg exit code 1") ∧
    jsIncludes "ffmpeg exit code 1" "Connection refused" = false ∧
    runYtDlpServerOutcome (.spawnError "spawn yt-dlp ENOENT") "" [] =
      none := by
  refine ⟨?_, by decide, rfl⟩
  show runFfmpegM3u8Outcome (.closed 1) "downloads/job_job1.mp4" [] =
    some (.error "ffmpeg exit code 1")
  rfl

/-- Witness for `adapter_failure_surface` at a concrete exit code. -/
theorem adapter_failure_surface_witness :
    runAria2SingleOutcome (.closed 2) "boom" [] =
      some (.error ("aria2c exit code " ++ toString (2 : Int) ++ ". " ++
        jsSliceLast 400 "boom")) :=
  (adapter_failure_surface 2 "spawn aria2c ENOENT" "" "boom" "" [] []
    (by decide)).2.2.2.2.2.1

/-- C7: submissions whose trimmed URL fails `isValidUrl` (empty, malformed,
or a scheme other than http/https) are answered 400 with no job created and
nothing enqueued; valid submissions create a fresh `queued` record, enqueue
its id and are answered with the id and status `"queued"`. -/
theorem post_jobs_validation (bodyUrl : Option String) (freshId : String)
    (now : Nat) (s : ServerState) :
    (isValidUrl (jsTrim (bodyUrl.getD "")) = false →
       (postJobsHandler bodyUrl freshId now s).1 =
         .badRequest "URL tidak valid." ∧
       (postJobsHandler bodyUrl freshId now s).2 = s) ∧
    (isValidUrl (jsTrim (bodyUrl.getD "")) = true →
       (postJobsHandler bodyUrl freshId now s).1 =
         .created freshId "queued" ∧
       (postJobsHandler bodyUrl freshId now s).2.jobs =
         s.jobs ++ [newJob freshId (jsTrim (bodyUrl.getD "")) now] ∧
       (postJobsHandler bodyUrl freshId now s).2.queue =
         s.queue ++ [freshId] ∧
       (newJob freshId (jsTrim (bodyUrl.getD "")) now).status = .queued ∧
       (newJob freshId (jsTrim (bodyUrl.getD "")) now).error = none) := by
  constructor
  · intro hv
    constructor <;> simp [postJobsHandler, hv]
  · intro hv
    have hne : jsTrim (bodyUrl.getD "") ≠ "" := by
      intro h0
      rw [h0] at hv
      exact absurd hv (by decide)
    refine ⟨?_, ?_, ?_, rfl, rfl⟩ <;> simp [postJobsHandler, hv, hne]

/-- Witness for `post_jobs_validation`: an ftp URL and a hostless
`"http://"` are rejected, a whitespace-padded https URL is accepted. -/
theorem post_jobs_validation_witness :
    (postJobsHandler (some "ftp://host/file.bin") "j1" 0 ⟨[], []⟩).1 =
      .badRequest "URL tidak valid." ∧
    (postJobsHandler (some "http://") "j3" 0 ⟨[], []⟩).1 =
      .badRequest "URL tidak valid." ∧
    (postJobsHandler (some " https://example.com/a ") "j2" 0 ⟨[], []⟩).1 =
      .created "j2" "queued" := by
  refine ⟨?_, ?_, ?_⟩
  · exact ((post_jobs_validation (some "ftp://host/file.bin") "j1" 0
      ⟨[], []⟩).1 (by decide)).1
  · exact ((post_jobs_validation (some "http://") "j3" 0
      ⟨[], []⟩).1 (by decide)).1
  · exact ((post_jobs_validation (some " https://example.com/a ") "j2" 0
      ⟨[], []⟩).2 (by decide)).1

/-- C8: when an engine subprocess exits non-zero, each adapter rejects with
a message that contains the exit code, and a pipeline run whose engine
settles with that message ends in state `error` with that message in the
job's `error` field. -/
theorem engine_nonzero_exit_error (env : Env) (minutes : Nat) (job0 : Job)
    (disk : List String) (code : Int) (finalPath stderr outPath : String)
    (diskA dirFiles : List String) (hc : code ≠ 0)
    (hstart : env.startMsg = none) :
    (runYtDlpSingleOutcome (.closed code) finalPath stderr diskA =
       some (.error ("yt-dlp exit code " ++ toString code ++ ". " ++
         jsSliceLast 400 stderr)) ∧
     StrContains ("yt-dlp exit code " ++ toString code ++ ". " ++
       jsSliceLast 400 stderr) (toString code) ∧
     (processQueueBody { env with
         engineResult := .error ("yt-dlp exit code " ++ toString code ++
           ". " ++ jsSliceLast 400 stderr) } minutes job0 disk).job.status =
       .error ∧
     (processQueueBody { env with
         engineResult := .error ("yt-dlp exit code " ++ toString code ++
           ". " ++ jsSliceLast 400 stderr) } minutes job0 disk).job.error =
       some ("yt-dlp exit code " ++ toString code ++ ". " ++
         jsSliceLast 400 stderr)) ∧
    (runAria2SingleOutcome (.closed code) stderr dirFiles =
       some (.error ("aria2c exit code " ++ toString code ++ ". " ++
         jsSliceLast 400 stderr)) ∧
     StrContains ("aria2c exit code " ++ toString code ++ ". " ++
       jsSliceLast 400 stderr) (toString code) ∧
     (processQueueBody { env with
         engineResult := .error ("aria2c exit code " ++ toString code ++
           ". " ++ jsSliceLast 400 stderr) } minutes job0 disk).job.status =
       .error ∧
     (processQueueBody { env with
         engineResult := .error ("aria2c exit code " ++ toString code ++
           ". " ++ jsSliceLast 400 stderr) } minutes job0 disk).job.error =
       some ("aria2c exit code " ++ toString code ++ ". " ++
         jsSliceLast 400 stderr)) ∧
    (runFfmpegM3u8Outcome (.closed code) outPath diskA =
       some (.error ("ffmpeg exit code " ++ toString code)) ∧
     StrContains ("ffmpeg exit code " ++ toString code) (toString code) ∧
     (processQueueBody { env with
         engineResult := .error ("ffmpeg exit code " ++ toString code) } minutes job0
       disk).job.status = .error ∧
     (processQueueBody { env with
         engineResult := .error ("ffmpeg exit code " ++ toString code) } minutes job0
       disk).job.error = some ("ffmpeg exit code " ++ toString code)) ∧
    (runSpotdlMultiOutcome (.closed code) stderr dirFiles =
       some (.error ("spotdl exit code " ++ toString code ++ ". " ++
         jsSliceLast 400 stderr)) ∧
     StrContains ("spotdl exit code " ++ toString code ++ ". " ++
       jsSliceLast 400 stderr) (toString code) ∧
     (processQueueBody { env with
         engineResult := .error ("spotdl exit code " ++ toString code ++
           ". " ++ jsSliceLast 400 stderr) } minutes job0 disk).job.status =
       .error ∧
     (processQueueBody { env with
         engineResult := .error ("spotdl exit code " ++ toString code ++
           ". " ++ jsSliceLast 400 stderr) } minutes job0 disk).job.error =
       some ("spotdl exit code " ++ toString code ++ ". " ++
         jsSliceLast 400 stderr)) := by
  refine ⟨⟨?_, ?_, ?_, ?_⟩, ⟨?_, ?_, ?_, ?_⟩, ⟨?_, ?_, ?_, ?_⟩,
          ⟨?_, ?_, ?_, ?_⟩⟩
  · simp [runYtDlpSingleOutcome, hc]
  · exact ⟨"yt-dlp exit code ", ". " ++ jsSliceLast 400 stderr,
      String.append_assoc _ _ _⟩
  · exact (processQueueBody_engineError { env with
      engineResult := .error ("yt-dlp exit code " ++ toString code ++ ". " ++ jsSliceLast 400 stderr) }
      minutes job0 disk _ hstart rfl).1
  · exact (processQueueBody_engineError { env with
      engineResult := .error ("yt-dlp exit code " ++ toString code ++ ". " ++ jsSliceLast 400 stderr) }
      minutes job0 disk _ hstart rfl).2
  · simp [runAria2SingleOutcome, hc]
  · exact ⟨"aria2c exit code ", ". " ++ jsSliceLast 400 stderr,
      String.append_assoc _ _ _⟩
  · exact (processQueueBody_engineError { env with
      engineResult := .error ("aria2c exit code " ++ toString code ++ ". " ++ jsSliceLast 400 stderr) }
      minutes job0 disk _ hstart rfl).1
  · exact (processQueueBody_engineError { env with
      engineResult := .error ("aria2c exit code " ++ toString code ++ ". " ++ jsSliceLast 400 stderr) }
      minutes job0 disk _ hstart rfl).2
  · simp [runFfmpegM3u8Outcome, hc]
  · exact ⟨"ffmpeg exit code ", "", (String.append_empty _).symm⟩
  · exact (processQueueBody_engineError { env with
      engineResult := .error ("ffmpeg exit code " ++ toString code) }
      minutes job0 disk _ hstart rfl).1
  · exact (processQueueBody_engineError { env with
      engineResult := .error ("ffmpeg exit code " ++ toString code) }
      minutes job0 disk _ hstart rfl).2
  · simp [runSpotdlMultiOutcome, hc]
  · exact ⟨"spotdl exit code ", ". " ++ jsSliceLast 400 stderr,
      String.append_assoc _ _ _⟩
  · exact (processQueueBody_engineError { env with
      engineResult := .error ("spotdl exit code " ++ toString code ++ ". " ++ jsSliceLast 400 stderr) }
      minutes job0 disk _ hstart rfl).1
  · exact (processQueueBody_engineError { env with
      engineResult := .error ("spotdl exit code " ++ toString code ++ ". " ++ jsSliceLast 400 stderr) }
      minutes job0 disk _ hstart rfl).2

/-- Witness for `engine_nonzero_exit_error` at exit code 2. -/
theorem engine_nonzero_exit_error_witness :
    (processQueueBody { envOkSingle with
        engineResult := .error ("yt-dlp exit code " ++ toString (2 : Int) ++
          ". " ++ jsSliceLast 400 "boom") } 60 freshJob []).job.status = .error :=
  ((engine_nonzero_exit_error envOkSingle 60 freshJob [] 2 "" "boom" "" []
    [] (by decide) rfl).1).2.2.1

/-- C9: a single-file run that ends `done` schedules exactly one deferred
cleanup with the configured delay in minutes clamped below at one minute;
multi-file runs schedule none; at fire time the re-fetched record's
`file_path` is deleted exactly when it is set (and nonempty) and still on
disk, and the filesystem is untouched otherwise. -/
theorem single_cleanup_timer (env : Env) (minutes : Nat) (job0 : Job)
    (disk : List String) :
    (∀ fp, env.engineResult = .ok (.single fp) →
       (processQueueBody env minutes job0 disk).job.status = .done →
       (processQueueBody env minutes job0 disk).timers =
         [cleanupDelayMs minutes]) ∧
    cleanupDelayMs minutes = Nat.max 1 minutes * 60 * 1000 ∧
    (∀ files, env.engineResult = .ok (.multi files) →
       (processQueueBody env minutes job0 disk).timers = []) ∧
    (∀ (j : Job) (d : List String) (fp : String), j.file_path = some fp →
       fp ≠ "" → fp ∈ d →
       cleanupFire (some j) d = d.filter (fun p => p != fp)) ∧
    (∀ (j : Job) (d : List String) (fp : String), j.file_path = some fp →
       fp ∉ d → cleanupFire (some j) d = d) ∧
    (∀ (j : Job) (d : List String), j.file_path = none →
       cleanupFire (some j) d = d) := by
  refine ⟨?_, rfl, ?_, ?_, ?_, ?_⟩
  · intro fp hres hdone
    cases hs : env.startMsg with
    | some e => simp [processQueueBody, hs, failJob] at hdone
    | none =>
      cases hu : env.uploadErr fp with
      | some e => simp [processQueueBody, hs, hres, hu, failJob] at hdone
      | none =>
        cases hm : env.singleDoneMsg with
        | some e =>
          simp [processQueueBody, hs, hres, hu, hm, failJob] at hdone
        | none => simp [processQueueBody, hs, hres, hu, hm]
  · intro files hres
    cases hs : env.startMsg with
    | some e => simp [processQueueBody, hs]
    | none =>
      cases hh : env.multiHeaderMsg with
      | some e => simp [processQueueBody, hs, hres, hh]
      | none =>
        cases herr : (deliverFiles env (sortFiles files) disk).2.2 with
        | some e => simp [processQueueBody, hs, hres, hh, herr]
        | none =>
          cases hm : env.multiDoneMsg with
          | some e => simp [processQueueBody, hs, hres, hh, herr, hm]
          | none => simp [processQueueBody, hs, hres, hh, herr, hm]
  · intro j d fp hfp hne hmem
    simp [cleanupFire, hfp, hne, hmem]
  · intro j d fp hfp hmem
    simp [cleanupFire, hfp, hmem]
  · intro j d hfp
    simp [cleanupFire, hfp]

/-- Witness for `single_cleanup_timer`: with the delay configured to 0
minutes, the scheduled delay is clamped to one minute (60000 ms). -/
theorem single_cleanup_timer_witness :
    (processQueueBody envOkSingle 0 freshJob []).timers = [60000] := by
  have h := (single_cleanup_timer envOkSingle 0 freshJob []).1
    "downloads/job_job1.mp4" rfl (by decide)
  simpa [cleanupDelayMs] using h

/-- C10: reading a job's status mutates nothing: the GET handler returns
the registry unchanged, its response is a fresh copy with the log cut to
the last 8000 characters while the stored record keeps the full log, and
any number of consecutive reads leaves the state exactly as it was. -/
theorem get_job_read_pure (s : ServerState) (i : String) :
    (getJobHandler s i).2 = s ∧
    (∀ j, findJob s.jobs i = some j →
       (getJobHandler s i).1 = .ok { j with log := jsSliceLast 8000 j.log } ∧
       findJob ((getJobHandler s i).2).jobs i = some j) ∧
    (findJob s.jobs i = none →
       (getJobHandler s i).1 = .notFound "Job tidak ditemukan.") ∧
    (∀ n, readN s n i = s) := by
  have hpure : (getJobHandler s i).2 = s := by
    cases h : findJob s.jobs i <;> simp [getJobHandler, h]
  refine ⟨hpure, ?_, ?_, ?_⟩
  · intro j hj
    refine ⟨by simp [getJobHandler, hj], ?_⟩
    rw [hpure]
    exact hj
  · intro h
    simp [getJobHandler, h]
  · intro n
    induction n with
    | zero => rfl
    | succ n ih =>
      show (getJobHandler (readN s n i) i).2 = s
      rw [ih, hpure]

/-- Witness for `get_job_read_pure` on a one-job registry. -/
theorem get_job_read_pure_witness :
    (getJobHandler ⟨[freshJob], ["job1"]⟩ "job1").1 =
      .ok { freshJob with log := jsSliceLast 8000 freshJob.log } ∧
    readN ⟨[freshJob], ["job1"]⟩ 3 "job1" = ⟨[freshJob], ["job1"]⟩ := by
  constructor
  · exact ((get_job_read_pure ⟨[freshJob], ["job1"]⟩ "job1").2.1 freshJob
      (by decide)).1
  · exact (get_job_read_pure ⟨[freshJob], ["job1"]⟩ "job1").2.2.2 3

end Downte
